import Mathlib

/-!
Verification of the Warpgate Terraform provider (Go sources under
`internal/provider` and `internal/client`) through a shallow embedding.

Go's generic JSON values (`any` decoded from JSON / Terraform untyped config
maps) are modelled by the inductive `JVal`.  Maps (`map[string]any`) are
modelled as association lists whose semantics is first-key lookup, matching
Go map semantics on key-distinct maps.  Go slices become Lean lists, Go
`string` becomes `String`, Go `int` (ports) becomes `Int`, fallible Go code
(including panics from failed type assertions) returns `Except String`.
-/

namespace Warpgate

/-- Generic JSON-ish value: everything a `map[string]any` decoded from JSON
or a Terraform untyped configuration block can hold. -/
inductive JVal where
  | null
  | bool (b : Bool)
  | num  (n : Int)
  | str  (s : String)
  | arr  (xs : List JVal)
  | obj  (fs : List (String × JVal))

/-- First-match lookup in an association list; models `m[key]` with the
comma-ok idiom on a Go map (`none` = key absent, i.e. `ok == false`). -/
def alookup {β : Type} : List (String × β) → String → Option β
  | [], _ => none
  | (k, v) :: rest, key => if k = key then some v else alookup rest key

/-- Models a Go type assertion `v.(string)` (with comma-ok). -/
def JVal.asString? : JVal → Option String
  | .str s => some s
  | _ => none

/-- Models a Go type assertion `v.(bool)` (with comma-ok). -/
def JVal.asBool? : JVal → Option Bool
  | .bool b => some b
  | _ => none

/-- Models a Go type assertion `v.(int)` (with comma-ok). -/
def JVal.asInt? : JVal → Option Int
  | .num n => some n
  | _ => none

/-- Models a Go type assertion `v.([]any)` (with comma-ok). -/
def JVal.asArr? : JVal → Option (List JVal)
  | .arr xs => some xs
  | _ => none

/-- Models a Go type assertion `v.(map[string]any)` (with comma-ok). -/
def JVal.asObj? : JVal → Option (List (String × JVal))
  | .obj fs => some fs
  | _ => none

/-- Models a bare Go type assertion `v.(string)` whose failure panics. -/
def asStrE (v : JVal) : Except String String :=
  match v with
  | .str s => .ok s
  | _ => .error "panic: interface conversion to string"

/-- Models a bare Go type assertion `v.(bool)` whose failure panics. -/
def asBoolE (v : JVal) : Except String Bool :=
  match v with
  | .bool b => .ok b
  | _ => .error "panic: interface conversion to bool"

/-- Models a bare Go type assertion `v.(int)` whose failure panics. -/
def asIntE (v : JVal) : Except String Int :=
  match v with
  | .num n => .ok n
  | _ => .error "panic: interface conversion to int"

/-- Models a bare Go type assertion `v.([]any)` whose failure panics. -/
def asArrE (v : JVal) : Except String (List JVal) :=
  match v with
  | .arr xs => .ok xs
  | _ => .error "panic: interface conversion to list"

/-- Models a bare Go type assertion `v.(map[string]any)` whose failure panics. -/
def asObjE (v : JVal) : Except String (List (String × JVal)) :=
  match v with
  | .obj fs => .ok fs
  | _ => .error "panic: interface conversion to map"

/-- Go map indexing `m[key]` without comma-ok: a missing key yields the zero
value of `any`, i.e. `nil`, modelled as `JVal.null`. -/
def jget (m : List (String × JVal)) (k : String) : JVal :=
  (alookup m k).getD .null

/-- Splits a character list around every occurrence of `sep`; the clauses
mirror Go `strings.Split` with a single-character separator (in particular
the empty input yields one empty segment). -/
def splitCharsOn (sep : Char) : List Char → List (List Char)
  | [] => [[]]
  | c :: cs =>
    let r := splitCharsOn sep cs
    if c = sep then [] :: r
    else
      match r with
      | [] => [[c]]
      | h :: t => (c :: h) :: t

/-- Models Go `strings.Split(s, sep)` for a one-character separator. -/
def goSplit (s : String) (sep : Char) : List String :=
  (splitCharsOn sep s.data).map (fun cs => String.mk cs)

/-- Embeds `parseCompositeID` (provider.go): split on `:` and require
exactly two parts, else a format error naming the expected pattern. -/
def parseCompositeID (id part1Name part2Name : String) :
    Except String (String × String) :=
  match goSplit id ':' with
  | [a, b] => .ok (a, b)
  | _ => .error ("expected ID in format '" ++ part1Name ++ ":" ++ part2Name ++
      "', got: " ++ id)

/-!  API client layer (`internal/client`). -/

/-- Embeds `handleResponse` (client.go).  The response body is the text that
`io.ReadAll` would return; `result` is `none` when the Go caller passes a
`nil` target, and `some dec` when a target is given, `dec` being what JSON
decoding of the body into that target would yield.  The return value is
`.ok (some a)` when the body was decoded into the target, `.ok none` when no
decode was performed, `.error _` when the call fails. -/
def handleResponse {α : Type} (status : Nat) (body : String)
    (result : Option (Except String α)) : Except String (Option α) :=
  if status ≥ 400 then
    .error ("API request failed with status " ++ toString status ++ ": " ++ body)
  else
    match result with
    | some dec =>
      if status ≠ 204 then
        match dec with
        | .ok a => .ok (some a)
        | .error e => .error ("failed to decode response: " ++ e)
      else .ok none
    | none => .ok none

/-- Embeds the `Role` struct (client.go). -/
structure Role where
  id : String
  name : String
  description : String

/-- Zero value of `Role`. -/
def Role.zero : Role := { id := "", name := "", description := "" }

/-- Embeds `UserRequireCredentialsPolicy` (user.go); a `none` field is a
`nil` Go slice, a `some` field a non-nil slice of credential kinds. -/
structure UserRequireCredentialsPolicy where
  http : Option (List String)
  ssh : Option (List String)
  mysql : Option (List String)
  postgres : Option (List String)

/-- Embeds the `User` struct (user.go). -/
structure User where
  id : String
  username : String
  description : String
  credentialPolicy : Option UserRequireCredentialsPolicy

/-- Zero value of `User`. -/
def User.zero : User :=
  { id := "", username := "", description := "", credentialPolicy := none }

/-- Embeds the `Target` struct (target.go); `options` is the generic JSON
value the `any`-typed `Options` field decodes to. -/
structure Target where
  id : String
  name : String
  description : String
  allowRoles : List String
  options : JVal

/-- Zero value of `Target`. -/
def Target.zero : Target :=
  { id := "", name := "", description := "", allowRoles := [], options := .null }

/-- Embeds `GetRole` (client.go): a 404 short-circuits to a nil result with
no error; otherwise `handleResponse` decodes into `&role` and the (possibly
zero-valued) role is returned. -/
def getRole (status : Nat) (body : String) (decoded : Except String Role) :
    Except String (Option Role) :=
  if status = 404 then .ok none
  else
    match handleResponse status body (some decoded) with
    | .error e => .error e
    | .ok res => .ok (some (res.getD Role.zero))

/-- Embeds `GetUser` (user.go), same shape as `getRole`. -/
def getUser (status : Nat) (body : String) (decoded : Except String User) :
    Except String (Option User) :=
  if status = 404 then .ok none
  else
    match handleResponse status body (some decoded) with
    | .error e => .error e
    | .ok res => .ok (some (res.getD User.zero))

/-- Embeds `GetTarget` (target.go), same shape as `getRole`. -/
def getTarget (status : Nat) (body : String) (decoded : Except String Target) :
    Except String (Option Target) :=
  if status = 404 then .ok none
  else
    match handleResponse status body (some decoded) with
    | .error e => .error e
    | .ok res => .ok (some (res.getD Target.zero))

/-- Parses a raw query string into key/value pairs; models
`url.Values` as produced by `req.URL.Query()`. -/
def parseQuery (s : String) : List (String × String) :=
  (goSplit s '&').filterMap (fun kv =>
    match goSplit kv '=' with
    | [k, v] => some (k, v)
    | _ => none)

/-- Models `Values.Add`: appends a key/value pair to a (copied) values map. -/
def valuesAdd (vs : List (String × String)) (k v : String) :
    List (String × String) :=
  vs ++ [(k, v)]

/-- Embeds the request construction of `GetRoles` (client.go): a throwaway
`http.Request` is built for path `/roles`, `req.URL.Query()` returns a copy
of the parsed (empty) query which `Add` mutates without writing it back, and
`doRequest` is then invoked with `req.URL.Path` only.  Returns the path
actually handed to `doRequest`. -/
def getRolesRequestPath (search : String) : String :=
  let urlPath := "/roles"
  let urlRawQuery := ""
  let _mutatedCopy := valuesAdd (parseQuery urlRawQuery) "search" search
  urlPath

/-- Embeds the request construction of `GetTargets` (target.go), identical in
shape to `GetRoles`. -/
def getTargetsRequestPath (search : String) : String :=
  let urlPath := "/targets"
  let urlRawQuery := ""
  let _mutatedCopy := valuesAdd (parseQuery urlRawQuery) "search" search
  urlPath

/-- Embeds the request construction of `GetUsers` (user.go): a non-empty
search term is appended to the path via `fmt.Sprintf`. -/
def getUsersRequestPath (search : String) : String :=
  let path := "/users"
  if search ≠ "" then path ++ "?search=" ++ search else path

/-!  Resource read layer (`internal/provider`). -/

/-- Embeds the not-found handling of `resourceUserRead` (provider.go): a
fetch error propagates, a nil user clears the stored identifier, a present
user keeps it.  Returns the stored identifier after the read. -/
def resourceUserReadId (id : String) (fetch : Except String (Option User)) :
    Except String String :=
  match fetch with
  | .error e => .error ("failed to read user: " ++ e)
  | .ok none => .ok ""
  | .ok (some _) => .ok id

/-- Embeds `resourceUserRoleRead` (resource_user_role.go): the composite ID
is split on `:` (exactly two parts required), `user_id`/`role_id` are written
to state, the user's role list is fetched via `GetUserRoles`, and the stored
identifier is cleared when the role is no longer in the list.
`rolesResult` is what the `GetUserRoles` call returns.  The result carries
the stored identifier after the read together with the state's
`user_id` and `role_id` attributes. -/
def resourceUserRoleRead (id : String)
    (rolesResult : Except String (List Role)) :
    Except String (String × String × String) :=
  match goSplit id ':' with
  | [userID, roleID] =>
    match rolesResult with
    | .error e => .error ("failed to get user roles: " ++ e)
    | .ok roles =>
      let found := roles.any (fun r => r.id == roleID)
      .ok (if found then id else "", userID, roleID)
  | _ => .error ("invalid ID format: " ++ id ++ " (expected user_id:role_id)")

/-- Embeds the inline composite-ID parsing of `resourcePublicKeyCredentialRead`:
split on `:`, require exactly two parts, else a format error naming the
expected pattern. -/
def parsePublicKeyCredentialID (id : String) : Except String (String × String) :=
  match goSplit id ':' with
  | [userID, credID] => .ok (userID, credID)
  | _ => .error ("invalid ID format: " ++ id ++ " (expected user_id:credential_id)")

/-!  Target-options codec (`internal/provider/provider.go`, `internal/client/target.go`). -/

/-- Embeds the `TLS` struct (target.go); `mode` carries the `TLSMode` string. -/
structure TLS where
  mode : String
  verify : Bool

/-- Embeds the `SSHTargetAuth` interface with its two implementations
`SSHTargetPasswordAuth` and `SSHTargetPublicKeyAuth` (target.go); the `kind`
fields are kept as data, as in the Go structs. -/
inductive SSHTargetAuth where
  | passwordAuth (kind : String) (password : String)
  | publicKeyAuth (kind : String)

/-- Embeds the `TargetSSHOptions` struct (target.go). -/
structure TargetSSHOptions where
  kind : String
  host : String
  port : Int
  username : String
  allowInsecureAlgos : Bool
  auth : SSHTargetAuth

/-- Embeds the `TargetHTTPOptions` struct (target.go); `headers` is the
`map[string]string` as an association list (`[]` = nil/empty map). -/
structure TargetHTTPOptions where
  kind : String
  url : String
  tls : TLS
  headers : List (String × String)
  externalHost : String

/-- Embeds the `TargetMySQLOptions` struct (target.go). -/
structure TargetMySQLOptions where
  kind : String
  host : String
  port : Int
  username : String
  password : String
  tls : TLS

/-- Embeds the `TargetPostgresOptions` struct (target.go). -/
structure TargetPostgresOptions where
  kind : String
  host : String
  port : Int
  username : String
  password : String
  tls : TLS

/-- Embeds the `TargetOptions any` union: the four concrete option structs
the provider ever builds. -/
inductive TargetOptions where
  | ssh (o : TargetSSHOptions)
  | http (o : TargetHTTPOptions)
  | mysql (o : TargetMySQLOptions)
  | postgres (o : TargetPostgresOptions)

/-- Go `encoding/json` marshalling of the `TLS` struct. -/
def TLS.toJson (t : TLS) : JVal :=
  .obj [("mode", .str t.mode), ("verify", .bool t.verify)]

/-- Go `encoding/json` marshalling of an `SSHTargetAuth` value (no
`omitempty` on either struct). -/
def SSHTargetAuth.toJson : SSHTargetAuth → JVal
  | .passwordAuth kind password =>
    .obj [("kind", .str kind), ("password", .str password)]
  | .publicKeyAuth kind => .obj [("kind", .str kind)]

/-- Go `encoding/json` marshalling of `TargetSSHOptions`:
`allow_insecure_algos` carries `omitempty`, so a `false` value is omitted. -/
def TargetSSHOptions.toJson (o : TargetSSHOptions) : JVal :=
  .obj ([("kind", .str o.kind), ("host", .str o.host), ("port", .num o.port),
         ("username", .str o.username)] ++
    (if o.allowInsecureAlgos then [("allow_insecure_algos", .bool true)] else []) ++
    [("auth", o.auth.toJson)])

/-- Go `encoding/json` marshalling of `TargetHTTPOptions`: `headers` and
`external_host` carry `omitempty` (empty map / empty string omitted). -/
def TargetHTTPOptions.toJson (o : TargetHTTPOptions) : JVal :=
  .obj ([("kind", .str o.kind), ("url", .str o.url), ("tls", o.tls.toJson)] ++
    (if o.headers.isEmpty then []
     else [("headers", .obj (o.headers.map (fun p => (p.1, .str p.2))))]) ++
    (if o.externalHost = "" then []
     else [("external_host", .str o.externalHost)]))

/-- Go `encoding/json` marshalling of `TargetMySQLOptions`: `password`
carries `omitempty`. -/
def TargetMySQLOptions.toJson (o : TargetMySQLOptions) : JVal :=
  .obj ([("kind", .str o.kind), ("host", .str o.host), ("port", .num o.port),
         ("username", .str o.username)] ++
    (if o.password = "" then [] else [("password", .str o.password)]) ++
    [("tls", o.tls.toJson)])

/-- Go `encoding/json` marshalling of `TargetPostgresOptions`: `password`
carries `omitempty`. -/
def TargetPostgresOptions.toJson (o : TargetPostgresOptions) : JVal :=
  .obj ([("kind", .str o.kind), ("host", .str o.host), ("port", .num o.port),
         ("username", .str o.username)] ++
    (if o.password = "" then [] else [("password", .str o.password)]) ++
    [("tls", o.tls.toJson)])

/-- Go `encoding/json` marshalling of the `TargetOptions` interface value. -/
def TargetOptions.toJson : TargetOptions → JVal
  | .ssh o => o.toJson
  | .http o => o.toJson
  | .mysql o => o.toJson
  | .postgres o => o.toJson

/-- Embeds `parseTLSConfig` (provider.go): the first element of the `tls`
block list is asserted to a map and its `mode`/`verify` fields extracted. -/
def parseTLSConfig (tlsData : List JVal) : Except String TLS :=
  match tlsData with
  | [] => .error "tls configuration not provided"
  | first :: _ => do
    let tlsMap ← asObjE first
    let mode ← asStrE (jget tlsMap "mode")
    let verify ← asBoolE (jget tlsMap "verify")
    .ok { mode := mode, verify := verify }

/-- Models the Go pattern `if v, ok := opts[k]; ok && len(v.([]any)) > 0`:
an absent key behaves as an empty list, a present non-list value panics. -/
def optList (opts : List (String × JVal)) (k : String) :
    Except String (List JVal) :=
  match alookup opts k with
  | none => .ok []
  | some v => asArrE v

/-- Embeds `buildSSHTargetOptions` (provider.go). -/
def buildSSHTargetOptions (opts : List (String × JVal)) :
    Except String TargetSSHOptions := do
  let host ← asStrE (jget opts "host")
  let port ← asIntE (jget opts "port")
  let username ← asStrE (jget opts "username")
  let allowInsecureAlgos ← asBoolE (jget opts "allow_insecure_algos")
  let pwList ← optList opts "password_auth"
  let auth ←
    match pwList with
    | first :: _ => do
      let pwAuth ← asObjE first
      let password ← asStrE (jget pwAuth "password")
      .ok (SSHTargetAuth.passwordAuth "Password" password)
    | [] => do
      let pkList ← optList opts "public_key_auth"
      match pkList with
      | _ :: _ => .ok (SSHTargetAuth.publicKeyAuth "PublicKey")
      | [] => .error "SSH target requires either password_auth or public_key_auth"
  .ok { kind := "Ssh", host := host, port := port, username := username,
        allowInsecureAlgos := allowInsecureAlgos, auth := auth }

/-- The header-copying loop of `buildHTTPTargetOptions`: each value of the
`headers` map is asserted to a string. -/
def copyHeaders : List (String × JVal) → Except String (List (String × String))
  | [] => .ok []
  | p :: rest => do
    let s ← asStrE p.2
    let t ← copyHeaders rest
    .ok ((p.1, s) :: t)

/-- Embeds `buildHTTPTargetOptions` (provider.go): a missing `tls` key keeps
the zero-value `TLS`, a missing `headers` key keeps a nil map, a missing
`external_host` key keeps the empty string. -/
def buildHTTPTargetOptions (opts : List (String × JVal)) :
    Except String TargetHTTPOptions := do
  let url ← asStrE (jget opts "url")
  let tls ←
    match alookup opts "tls" with
    | some v => do
      let tlsData ← asArrE v
      match parseTLSConfig tlsData with
      | .ok t => .ok t
      | .error e => .error ("invalid TLS configuration for HTTP target: " ++ e)
    | none => .ok { mode := "", verify := false }
  let headers ←
    match alookup opts "headers" with
    | some v => do
      let headersMap ← asObjE v
      copyHeaders headersMap
    | none => .ok []
  let externalHost ←
    match alookup opts "external_host" with
    | some v => asStrE v
    | none => .ok ""
  .ok { kind := "Http", url := url, tls := tls, headers := headers,
        externalHost := externalHost }

/-- Embeds `buildMysqlTargetOptions` (provider.go). -/
def buildMysqlTargetOptions (opts : List (String × JVal)) :
    Except String TargetMySQLOptions := do
  let host ← asStrE (jget opts "host")
  let port ← asIntE (jget opts "port")
  let username ← asStrE (jget opts "username")
  let password ←
    match alookup opts "password" with
    | some v => asStrE v
    | none => .ok ""
  let tls ←
    match alookup opts "tls" with
    | some v => do
      let tlsData ← asArrE v
      match parseTLSConfig tlsData with
      | .ok t => .ok t
      | .error e => .error ("invalid TLS configuration for MySQL target: " ++ e)
    | none => .ok { mode := "", verify := false }
  .ok { kind := "MySql", host := host, port := port, username := username,
        password := password, tls := tls }

/-- Embeds `buildPostgresTargetOptions` (provider.go). -/
def buildPostgresTargetOptions (opts : List (String × JVal)) :
    Except String TargetPostgresOptions := do
  let host ← asStrE (jget opts "host")
  let port ← asIntE (jget opts "port")
  let username ← asStrE (jget opts "username")
  let password ←
    match alookup opts "password" with
    | some v => asStrE v
    | none => .ok ""
  let tls ←
    match alookup opts "tls" with
    | some v => do
      let tlsData ← asArrE v
      match parseTLSConfig tlsData with
      | .ok t => .ok t
      | .error e => .error ("invalid TLS configuration for PostgreSQL target: " ++ e)
    | none => .ok { mode := "", verify := false }
  .ok { kind := "Postgres", host := host, port := port, username := username,
        password := password, tls := tls }

/-- Embeds the four option-block attributes of the target resource data
(each a Terraform list of at most one block map). -/
structure TargetResourceData where
  ssh_options : List JVal
  http_options : List JVal
  mysql_options : List JVal
  postgres_options : List JVal

/-- Embeds `buildTargetOptions` (provider.go): the first populated block of
`ssh_options`, `http_options`, `mysql_options`, `postgres_options` is built
into its concrete options struct; no populated block is an error. -/
def buildTargetOptions (d : TargetResourceData) :
    Except String TargetOptions :=
  match d.ssh_options with
  | v :: _ => do
    let sshOpts ← asObjE v
    let o ← buildSSHTargetOptions sshOpts
    .ok (.ssh o)
  | [] =>
    match d.http_options with
    | v :: _ => do
      let httpOpts ← asObjE v
      let o ← buildHTTPTargetOptions httpOpts
      .ok (.http o)
    | [] =>
      match d.mysql_options with
      | v :: _ => do
        let mysqlOpts ← asObjE v
        let o ← buildMysqlTargetOptions mysqlOpts
        .ok (.mysql o)
      | [] =>
        match d.postgres_options with
        | v :: _ => do
          let pgOpts ← asObjE v
          let o ← buildPostgresTargetOptions pgOpts
          .ok (.postgres o)
        | [] => .error "no target options specified"

/-- Embeds `validateTargetConfig` (provider.go): counts the populated option
blocks (`GetOk` is true exactly for a non-empty list) and rejects zero or
more than one; returns `none` on success, `some errorMessage` otherwise. -/
def validateTargetConfig (d : TargetResourceData) : Option String :=
  let count :=
    (if d.ssh_options.length > 0 then 1 else 0) +
    (if d.http_options.length > 0 then 1 else 0) +
    (if d.mysql_options.length > 0 then 1 else 0) +
    (if d.postgres_options.length > 0 then 1 else 0)
  if count = 0 then
    some "one of ssh_options, http_options, mysql_options, or postgres_options must be specified"
  else if count > 1 then
    some "only one of ssh_options, http_options, mysql_options, postgres_option can be specified"
  else none

/-- Embeds `targetOptionsToMap` (provider.go): marshal the `any`-typed
options value to JSON and unmarshal into `map[string]any`; unmarshalling a
non-object into a map fails. -/
def targetOptionsToMap (options : JVal) : Except String (List (String × JVal)) :=
  match options with
  | .obj fs => .ok fs
  | _ => .error "failed to unmarshal target options to map"

/-- The four option-block state attributes written by `setTargetOptions`
(each a Terraform list of block maps). -/
structure TargetState where
  ssh_options : List JVal
  http_options : List JVal
  mysql_options : List JVal
  postgres_options : List JVal

/-- Embeds `setTargetOptions` (provider.go): all four blocks are first reset
to empty lists, the options value is round-tripped through generic JSON into
a map, the `kind` discriminator is inspected and the matching block is
populated; a missing/unknown `kind` (or, for SSH, a malformed or unknown
auth) is an error. -/
def setTargetOptions (options : JVal) : Except String TargetState := do
  let optionsMap ← targetOptionsToMap options
  let kind ←
    match (alookup optionsMap "kind").bind JVal.asString? with
    | some k => Except.ok k
    | none => Except.error "missing 'kind' field in target options"
  if kind = "Ssh" then do
    let sshBase : List (String × JVal) :=
      [("host", jget optionsMap "host"), ("port", jget optionsMap "port"),
       ("username", jget optionsMap "username"),
       ("allow_insecure_algos", jget optionsMap "allow_insecure_algos")]
    let auth ←
      match (jget optionsMap "auth").asObj? with
      | some a => Except.ok a
      | none => Except.error "invalid auth field in SSH options"
    let authKind ←
      match (alookup auth "kind").bind JVal.asString? with
      | some k => Except.ok k
      | none => Except.error "missing 'kind' field in auth options"
    let sshOpts ←
      if authKind = "Password" then
        Except.ok (sshBase ++
          [("password_auth", .arr [.obj [("password", jget auth "password")]])])
      else if authKind = "PublicKey" then
        Except.ok (sshBase ++ [("public_key_auth", .arr [.obj []])])
      else Except.error ("unknown SSH auth kind: " ++ authKind)
    .ok { ssh_options := [.obj sshOpts], http_options := [],
          mysql_options := [], postgres_options := [] }
  else if kind = "Http" then do
    let tls ←
      match (jget optionsMap "tls").asObj? with
      | some t => Except.ok t
      | none => Except.error "invalid tls field in HTTP options"
    let tlsOpts : List (String × JVal) :=
      [("mode", jget tls "mode"), ("verify", jget tls "verify")]
    let base : List (String × JVal) :=
      [("url", jget optionsMap "url"), ("tls", .arr [.obj tlsOpts])]
    let withHeaders :=
      match (alookup optionsMap "headers").bind JVal.asObj? with
      | some headers => if headers.length > 0 then base ++ [("headers", .obj headers)] else base
      | none => base
    let httpOpts :=
      match (alookup optionsMap "external_host").bind JVal.asString? with
      | some externalHost =>
        if externalHost ≠ "" then withHeaders ++ [("external_host", .str externalHost)]
        else withHeaders
      | none => withHeaders
    .ok { ssh_options := [], http_options := [.obj httpOpts],
          mysql_options := [], postgres_options := [] }
  else if kind = "MySql" then do
    let tls ←
      match (jget optionsMap "tls").asObj? with
      | some t => Except.ok t
      | none => Except.error "invalid tls field in MySQL options"
    let tlsOpts : List (String × JVal) :=
      [("mode", jget tls "mode"), ("verify", jget tls "verify")]
    let base : List (String × JVal) :=
      [("host", jget optionsMap "host"), ("port", jget optionsMap "port"),
       ("username", jget optionsMap "username"), ("tls", .arr [.obj tlsOpts])]
    let mysqlOpts :=
      match (alookup optionsMap "password").bind JVal.asString? with
      | some password =>
        if password ≠ "" then base ++ [("password", .str password)] else base
      | none => base
    .ok { ssh_options := [], http_options := [],
          mysql_options := [.obj mysqlOpts], postgres_options := [] }
  else if kind = "Postgres" then do
    let tls ←
      match (jget optionsMap "tls").asObj? with
      | some t => Except.ok t
      | none => Except.error "invalid tls field in PostgreSQL options"
    let tlsOpts : List (String × JVal) :=
      [("mode", jget tls "mode"), ("verify", jget tls "verify")]
    let base : List (String × JVal) :=
      [("host", jget optionsMap "host"), ("port", jget optionsMap "port"),
       ("username", jget optionsMap "username"), ("tls", .arr [.obj tlsOpts])]
    let pgOpts :=
      match (alookup optionsMap "password").bind JVal.asString? with
      | some password =>
        if password ≠ "" then base ++ [("password", .str password)] else base
      | none => base
    .ok { ssh_options := [], http_options := [],
          mysql_options := [], postgres_options := [.obj pgOpts] }
  else .error ("unknown target kind: " ++ kind)

/-!  Credential-policy codec (`internal/provider/provider.go`). -/

/-- The five valid credential kinds of `validateUserConfig`. -/
def validKind (s : String) : Bool :=
  s = "Password" || s = "PublicKey" || s = "Totp" || s = "Sso" ||
  s = "WebUserApproval"

/-- The four known credential-policy keys of `validateUserConfig`. -/
def validPolicyKey (k : String) : Bool :=
  k = "http" || k = "ssh" || k = "mysql" || k = "postgres"

/-- One iteration step of the kind-list check in `validateUserConfig`:
returns the first offending entry's error, if any.  `i` is the running
index used in the error message. -/
def findInvalidKind (key : String) : Nat → List JVal → Option String
  | _, [] => none
  | i, kind :: rest =>
    match kind with
    | .str kindStr =>
      if validKind kindStr then findInvalidKind key (i + 1) rest
      else some ("credential_policy." ++ key ++ "[" ++ toString i ++ "]: " ++
        kindStr ++ " is not a valid credential kind")
    | _ => some ("credential_policy." ++ key ++ "[" ++ toString i ++
        "]: is not a valid credential kind")

/-- The per-entry loop of `validateUserConfig` over the policy map: unknown
keys, non-list values and invalid kinds produce an error. -/
def validatePolicyEntries : List (String × JVal) → Option String
  | [] => none
  | (key, val) :: rest =>
    if validPolicyKey key then
      match val with
      | .arr valueList =>
        match findInvalidKind key 0 valueList with
        | some e => some e
        | none => validatePolicyEntries rest
      | _ => some ("credential_policy." ++ key ++ " must be a list")
    else some ("unknown credential policy key: " ++ key)

/-- Embeds `validateUserConfig` (provider.go), given the `credential_policy`
attribute value (a list of at most one block): an absent or empty list
passes, a non-map first element is an error, otherwise every entry of the
policy map is checked.  Returns `none` on success, `some errorMessage`
otherwise. -/
def validateUserConfig (credPolicies : List JVal) : Option String :=
  match credPolicies with
  | [] => none
  | first :: _ =>
    match first with
    | .obj policy => validatePolicyEntries policy
    | _ => some "credential_policy must be a map"

/-- The element loop of `expandCredentialKindList`: each list element is
asserted to a string. -/
def copyKinds : List JVal → Except String (List String)
  | [] => .ok []
  | v :: rest => do
    let s ← asStrE v
    let t ← copyKinds rest
    .ok (s :: t)

/-- Embeds `expandCredentialKindList` (provider.go): an empty list becomes a
nil slice (`none`); each element is asserted to a string. -/
def expandCredentialKindList (list : List JVal) :
    Except String (Option (List String)) :=
  match list with
  | [] => .ok none
  | _ => do
    let result ← copyKinds list
    .ok (some result)

/-- The per-key step of `expandCredentialPolicy`: Go checks
`if v, ok := policyMap[k]; ok && v != nil` and then asserts `v.([]any)`. -/
def expandPolicyField (policyMap : List (String × JVal)) (k : String) :
    Except String (Option (List String)) :=
  match alookup policyMap k with
  | none => .ok none
  | some .null => .ok none
  | some v => do
    let l ← asArrE v
    expandCredentialKindList l

/-- Embeds `expandCredentialPolicy` (provider.go): an empty block list is a
nil policy; otherwise the first element is asserted to a map and the four
protocol fields are expanded. -/
def expandCredentialPolicy (policyList : List JVal) :
    Except String (Option UserRequireCredentialsPolicy) :=
  match policyList with
  | [] => .ok none
  | first :: _ => do
    let policyMap ← asObjE first
    let http ← expandPolicyField policyMap "http"
    let ssh ← expandPolicyField policyMap "ssh"
    let mysql ← expandPolicyField policyMap "mysql"
    let postgres ← expandPolicyField policyMap "postgres"
    .ok (some { http := http, ssh := ssh, mysql := mysql, postgres := postgres })

/-- Embeds `flattenCredentialKindList` (provider.go): an empty list becomes
a nil `[]any` (modelled `JVal.null`), otherwise the strings are re-wrapped. -/
def flattenCredentialKindList (list : List String) : JVal :=
  match list with
  | [] => .null
  | _ => .arr (list.map JVal.str)

/-- One `if policy.X != nil { result[k] = flattenCredentialKindList(...) }`
step of `flattenCredentialPolicy`: a nil field contributes no entry. -/
def flattenPolicyField (k : String) (o : Option (List String)) :
    List (String × JVal) :=
  match o with
  | some l => [(k, flattenCredentialKindList l)]
  | none => []

/-- Embeds `flattenCredentialPolicy` (provider.go): a nil policy flattens to
nil, otherwise a one-element list holding a map with one entry per non-nil
field. -/
def flattenCredentialPolicy (policy : Option UserRequireCredentialsPolicy) :
    List JVal :=
  match policy with
  | none => []
  | some p =>
    [.obj (flattenPolicyField "http" p.http ++ flattenPolicyField "ssh" p.ssh ++
      flattenPolicyField "mysql" p.mysql ++ flattenPolicyField "postgres" p.postgres)]

/-!  Terraform-side presentation of populated target option blocks.

A populated configuration block arrives at `buildTargetOptions` as an
untyped map in which Terraform materialises every schema key: unset optional
sub-lists are empty lists, the defaulted `allow_insecure_algos` is a bool,
unset optional strings are empty strings.  `toBlock` produces exactly that
map; the `view` functions read a block's values back the way Terraform's
typed schema does (missing keys coerce to zero values), so that
"round-trips to the original values" is `view (state block) = some config`.
-/

/-- The SSH auth sub-union of a configuration block: exactly one of
`password_auth` or `public_key_auth`. -/
inductive SSHAuthConfig where
  | password (pw : String)
  | publicKey

/-- The values of a populated `ssh_options` configuration block. -/
structure SSHConfig where
  host : String
  port : Int
  username : String
  allowInsecureAlgos : Bool
  auth : SSHAuthConfig

/-- The untyped map Terraform hands to `buildSSHTargetOptions` for a
populated `ssh_options` block. -/
def SSHConfig.toBlock (c : SSHConfig) : JVal :=
  .obj [("host", .str c.host), ("port", .num c.port),
        ("username", .str c.username),
        ("allow_insecure_algos", .bool c.allowInsecureAlgos),
        ("password_auth",
          match c.auth with
          | .password pw => .arr [.obj [("password", .str pw)]]
          | .publicKey => .arr []),
        ("public_key_auth",
          match c.auth with
          | .password _ => .arr []
          | .publicKey => .arr [.obj []])]

/-- Reads the SSH auth sub-union out of a block map: a non-empty
`password_auth` list wins, then a non-empty `public_key_auth` list. -/
def viewSSHAuth (m : List (String × JVal)) : Option SSHAuthConfig :=
  match alookup m "password_auth" with
  | some (.arr (first :: _)) => do
    let am ← first.asObj?
    let pw ← (alookup am "password").bind JVal.asString?
    some (.password pw)
  | _ =>
    match alookup m "public_key_auth" with
    | some (.arr (_ :: _)) => some .publicKey
    | _ => none

/-- Reads the values of an `ssh_options` block map; a missing
`allow_insecure_algos` coerces to `false` as Terraform's typed schema does. -/
def viewSSHBlock (b : JVal) : Option SSHConfig := do
  let m ← b.asObj?
  let host ← (alookup m "host").bind JVal.asString?
  let port ← (alookup m "port").bind JVal.asInt?
  let username ← (alookup m "username").bind JVal.asString?
  let allowInsecureAlgos :=
    match (alookup m "allow_insecure_algos").bind JVal.asBool? with
    | some v => v
    | none => false
  let auth ← viewSSHAuth m
  some { host := host, port := port, username := username,
         allowInsecureAlgos := allowInsecureAlgos, auth := auth }

/-- The values of a populated `http_options` configuration block. -/
structure HTTPConfig where
  url : String
  tlsMode : String
  tlsVerify : Bool
  headers : List (String × String)
  externalHost : String

/-- The untyped map Terraform hands to `buildHTTPTargetOptions` for a
populated `http_options` block. -/
def HTTPConfig.toBlock (c : HTTPConfig) : JVal :=
  .obj [("url", .str c.url),
        ("tls", .arr [.obj [("mode", .str c.tlsMode),
                            ("verify", .bool c.tlsVerify)]]),
        ("headers", .obj (c.headers.map (fun p => (p.1, .str p.2)))),
        ("external_host", .str c.externalHost)]

/-- Reads the nested TLS sub-block (mode, verify) out of a block map. -/
def viewTLS (m : List (String × JVal)) : Option (String × Bool) :=
  match alookup m "tls" with
  | some (.arr (first :: _)) => do
    let tm ← first.asObj?
    let mode ← (alookup tm "mode").bind JVal.asString?
    let verify ← (alookup tm "verify").bind JVal.asBool?
    some (mode, verify)
  | _ => none

/-- Reads the string-valued entries of a header map. -/
def viewHeaderEntries : List (String × JVal) → List (String × String)
  | [] => []
  | p :: rest =>
    match p.2.asString? with
    | some s => (p.1, s) :: viewHeaderEntries rest
    | none => viewHeaderEntries rest

/-- Reads a string-valued map attribute; a missing key coerces to the empty
map as Terraform's typed schema does. -/
def viewHeaders (m : List (String × JVal)) : List (String × String) :=
  match alookup m "headers" with
  | some (.obj fs) => viewHeaderEntries fs
  | _ => []

/-- Reads an optional string attribute; a missing key coerces to `""`. -/
def viewStringOr (m : List (String × JVal)) (k : String) : String :=
  match (alookup m k).bind JVal.asString? with
  | some s => s
  | none => ""

/-- Reads the values of an `http_options` block map. -/
def viewHTTPBlock (b : JVal) : Option HTTPConfig := do
  let m ← b.asObj?
  let url ← (alookup m "url").bind JVal.asString?
  let tls ← viewTLS m
  some { url := url, tlsMode := tls.1, tlsVerify := tls.2,
         headers := viewHeaders m, externalHost := viewStringOr m "external_host" }

/-- The values of a populated `mysql_options` or `postgres_options`
configuration block (both have the same shape). -/
structure DBConfig where
  host : String
  port : Int
  username : String
  password : String
  tlsMode : String
  tlsVerify : Bool

/-- The untyped map Terraform hands to `buildMysqlTargetOptions` or
`buildPostgresTargetOptions` for a populated block. -/
def DBConfig.toBlock (c : DBConfig) : JVal :=
  .obj [("host", .str c.host), ("port", .num c.port),
        ("username", .str c.username), ("password", .str c.password),
        ("tls", .arr [.obj [("mode", .str c.tlsMode),
                            ("verify", .bool c.tlsVerify)]])]

/-- Reads the values of a `mysql_options`/`postgres_options` block map; a
missing `password` coerces to `""`. -/
def viewDBBlock (b : JVal) : Option DBConfig := do
  let m ← b.asObj?
  let host ← (alookup m "host").bind JVal.asString?
  let port ← (alookup m "port").bind JVal.asInt?
  let username ← (alookup m "username").bind JVal.asString?
  let tls ← viewTLS m
  some { host := host, port := port, username := username,
         password := viewStringOr m "password",
         tlsMode := tls.1, tlsVerify := tls.2 }

/-- Encode-then-decode pipeline for a populated `ssh_options` block:
`buildTargetOptions` followed by `setTargetOptions` on the built struct's
generic JSON value (as `targetOptionsToMap` produces it). -/
def roundTripSSH (c : SSHConfig) : Except String TargetState := do
  let o ← buildTargetOptions
    { ssh_options := [c.toBlock], http_options := [],
      mysql_options := [], postgres_options := [] }
  setTargetOptions o.toJson

/-- Encode-then-decode pipeline for a populated `http_options` block. -/
def roundTripHTTP (c : HTTPConfig) : Except String TargetState := do
  let o ← buildTargetOptions
    { ssh_options := [], http_options := [c.toBlock],
      mysql_options := [], postgres_options := [] }
  setTargetOptions o.toJson

/-- Encode-then-decode pipeline for a populated `mysql_options` block. -/
def roundTripMySQL (c : DBConfig) : Except String TargetState := do
  let o ← buildTargetOptions
    { ssh_options := [], http_options := [],
      mysql_options := [c.toBlock], postgres_options := [] }
  setTargetOptions o.toJson

/-- Encode-then-decode pipeline for a populated `postgres_options` block. -/
def roundTripPostgres (c : DBConfig) : Except String TargetState := do
  let o ← buildTargetOptions
    { ssh_options := [], http_options := [],
      mysql_options := [], postgres_options := [c.toBlock] }
  setTargetOptions o.toJson

/-- The `kind` discriminator an options value carries: present exactly when
the value is an object whose `kind` field is a string. -/
def kindOf (v : JVal) : Option String :=
  v.asObj?.bind (fun m => (alookup m "kind").bind JVal.asString?)

/-- A credential-policy list element the validator accepts: a string naming
one of the five valid credential kinds. -/
def elemOk (e : JVal) : Bool :=
  match e with
  | .str s => validKind s
  | _ => false

/-- A credential-policy map entry the validator accepts: a known protocol
key whose value is a list of valid kind strings. -/
def entryOk (k : String) (v : JVal) : Prop :=
  validPolicyKey k = true ∧
  ∃ elems, v = .arr elems ∧ ∀ e ∈ elems, elemOk e = true

/-!  Theorems for the specification claims. -/

/-- The header-copy loop succeeds on a map whose values are all strings and
returns exactly those entries. -/
theorem copyHeaders_strs (hs : List (String × String)) :
    copyHeaders (hs.map (fun p => (p.1, .str p.2))) = .ok hs := by
  induction hs with
  | nil => rfl
  | cons p ps ih =>
    simp [copyHeaders, asStrE, ih, Bind.bind, Except.bind]

/-- Reading the entries of an all-string header map returns those entries. -/
theorem viewHeaderEntries_strs (hs : List (String × String)) :
    viewHeaderEntries (hs.map (fun p => (p.1, .str p.2))) = hs := by
  induction hs with
  | nil => rfl
  | cons p ps ih =>
    simp [viewHeaderEntries, JVal.asString?, ih]

/-- Claim C1: for each of the four target-option kinds, encoding a populated
options configuration block with `buildTargetOptions` and flattening the
resulting typed struct back through `setTargetOptions` (via the generic JSON
map of `targetOptionsToMap`) yields a state in which only the matching block
is populated and whose values — read back the way Terraform's typed schema
reads a block, including the nested TLS sub-block and the SSH auth
sub-union — are exactly the original configuration's values. -/
theorem c1_target_options_roundTrip :
    (∀ c : SSHConfig, ∃ b, roundTripSSH c = .ok ⟨[b], [], [], []⟩ ∧
      viewSSHBlock b = some c ∧ viewSSHBlock c.toBlock = some c) ∧
    (∀ c : HTTPConfig, ∃ b, roundTripHTTP c = .ok ⟨[], [b], [], []⟩ ∧
      viewHTTPBlock b = some c ∧ viewHTTPBlock c.toBlock = some c) ∧
    (∀ c : DBConfig, ∃ b, roundTripMySQL c = .ok ⟨[], [], [b], []⟩ ∧
      viewDBBlock b = some c ∧ viewDBBlock c.toBlock = some c) ∧
    (∀ c : DBConfig, ∃ b, roundTripPostgres c = .ok ⟨[], [], [], [b]⟩ ∧
      viewDBBlock b = some c ∧ viewDBBlock c.toBlock = some c) := by
  refine ⟨?_, ?_, ?_, ?_⟩
  · rintro ⟨host, port, username, aia, pw | _⟩ <;> cases aia <;>
      exact ⟨_, rfl, rfl, rfl⟩
  · rintro ⟨url, tlsMode, tlsVerify, headers, externalHost⟩
    by_cases he : externalHost = "" <;> cases headers with
    | nil =>
      first
      | (subst he; exact ⟨_, rfl, rfl, rfl⟩)
      | (refine ⟨.obj [("url", .str url),
          ("tls", .arr [.obj [("mode", .str tlsMode), ("verify", .bool tlsVerify)]]),
          ("external_host", .str externalHost)], ?_, ?_, ?_⟩ <;>
          simp [roundTripHTTP, buildTargetOptions, buildHTTPTargetOptions,
            parseTLSConfig, setTargetOptions, targetOptionsToMap,
            TargetOptions.toJson, TargetHTTPOptions.toJson, TLS.toJson, alookup,
            jget, asObjE, asStrE, asIntE, asBoolE, asArrE, he, HTTPConfig.toBlock,
            Bind.bind, Except.bind, JVal.asString?, JVal.asObj?, JVal.asInt?,
            JVal.asBool?, JVal.asArr?, Option.bind, copyHeaders_strs,
            viewHTTPBlock, viewTLS, viewStringOr, viewHeaders,
            viewHeaderEntries_strs, copyHeaders, viewHeaderEntries])
    | cons p ps =>
      first
      | (subst he; refine ⟨.obj [("url", .str url),
          ("tls", .arr [.obj [("mode", .str tlsMode), ("verify", .bool tlsVerify)]]),
          ("headers", .obj ((p :: ps).map (fun q => (q.1, .str q.2))))], ?_, ?_, ?_⟩ <;>
          simp [roundTripHTTP, buildTargetOptions, buildHTTPTargetOptions,
            parseTLSConfig, setTargetOptions, targetOptionsToMap,
            TargetOptions.toJson, TargetHTTPOptions.toJson, TLS.toJson, alookup,
            jget, asObjE, asStrE, asIntE, asBoolE, asArrE, HTTPConfig.toBlock,
            Bind.bind, Except.bind, JVal.asString?, JVal.asObj?, JVal.asInt?,
            JVal.asBool?, JVal.asArr?, Option.bind, copyHeaders_strs,
            viewHTTPBlock, viewTLS, viewStringOr, viewHeaders,
            viewHeaderEntries_strs, copyHeaders, viewHeaderEntries])
      | (refine ⟨.obj [("url", .str url),
          ("tls", .arr [.obj [("mode", .str tlsMode), ("verify", .bool tlsVerify)]]),
          ("headers", .obj ((p :: ps).map (fun q => (q.1, .str q.2)))),
          ("external_host", .str externalHost)], ?_, ?_, ?_⟩ <;>
          simp [roundTripHTTP, buildTargetOptions, buildHTTPTargetOptions,
            parseTLSConfig, setTargetOptions, targetOptionsToMap,
            TargetOptions.toJson, TargetHTTPOptions.toJson, TLS.toJson, alookup,
            jget, asObjE, asStrE, asIntE, asBoolE, asArrE, he, HTTPConfig.toBlock,
            Bind.bind, Except.bind, JVal.asString?, JVal.asObj?, JVal.asInt?,
            JVal.asBool?, JVal.asArr?, Option.bind, copyHeaders_strs,
            viewHTTPBlock, viewTLS, viewStringOr, viewHeaders,
            viewHeaderEntries_strs, copyHeaders, viewHeaderEntries])
  · rintro ⟨host, port, username, password, tlsMode, tlsVerify⟩
    by_cases h : password = ""
    · subst h; exact ⟨_, rfl, rfl, rfl⟩
    · refine ⟨.obj [("host", .str host), ("port", .num port),
        ("username", .str username),
        ("tls", .arr [.obj [("mode", .str tlsMode), ("verify", .bool tlsVerify)]]),
        ("password", .str password)], ?_, ?_, ?_⟩
      · simp [roundTripMySQL, buildTargetOptions, buildMysqlTargetOptions,
          parseTLSConfig, setTargetOptions, targetOptionsToMap,
          TargetOptions.toJson, TargetMySQLOptions.toJson, TLS.toJson, alookup,
          jget, asObjE, asStrE, asIntE, asBoolE, asArrE, h, DBConfig.toBlock,
          Bind.bind, Except.bind, JVal.asString?, JVal.asObj?, JVal.asInt?,
          JVal.asBool?, JVal.asArr?, Option.bind]
      · simp [viewDBBlock, viewTLS, viewStringOr, alookup, JVal.asObj?,
          JVal.asString?, JVal.asInt?, JVal.asBool?, Bind.bind, Option.bind, h]
      · rfl
  · rintro ⟨host, port, username, password, tlsMode, tlsVerify⟩
    by_cases h : password = ""
    · subst h; exact ⟨_, rfl, rfl, rfl⟩
    · refine ⟨.obj [("host", .str host), ("port", .num port),
        ("username", .str username),
        ("tls", .arr [.obj [("mode", .str tlsMode), ("verify", .bool tlsVerify)]]),
        ("password", .str password)], ?_, ?_, ?_⟩
      · simp [roundTripPostgres, buildTargetOptions, buildPostgresTargetOptions,
          parseTLSConfig, setTargetOptions, targetOptionsToMap,
          TargetOptions.toJson, TargetPostgresOptions.toJson, TLS.toJson, alookup,
          jget, asObjE, asStrE, asIntE, asBoolE, asArrE, h, DBConfig.toBlock,
          Bind.bind, Except.bind, JVal.asString?, JVal.asObj?, JVal.asInt?,
          JVal.asBool?, JVal.asArr?, Option.bind]
      · simp [viewDBBlock, viewTLS, viewStringOr, alookup, JVal.asObj?,
          JVal.asString?, JVal.asInt?, JVal.asBool?, Bind.bind, Option.bind, h]
      · rfl

/-- Claim C8: on the read path, `setTargetOptions` errors whenever the
`kind` discriminator is missing or not one of Ssh/Http/MySql/Postgres, and,
for SSH, whenever the auth sub-object's `kind` is neither Password nor
PublicKey; whenever it succeeds, only the block matching the discriminator
is populated and the other three are cleared. -/
theorem c8_setTargetOptions_kinds :
    (∀ v : JVal, kindOf v = none → ∃ e, setTargetOptions v = .error e) ∧
    (∀ (v : JVal) (k : String), kindOf v = some k →
      k ≠ "Ssh" → k ≠ "Http" → k ≠ "MySql" → k ≠ "Postgres" →
      setTargetOptions v = .error ("unknown target kind: " ++ k)) ∧
    (∀ (m auth : List (String × JVal)) (ak : String),
      kindOf (.obj m) = some "Ssh" →
      jget m "auth" = .obj auth →
      (alookup auth "kind").bind JVal.asString? = some ak →
      ak ≠ "Password" → ak ≠ "PublicKey" →
      setTargetOptions (.obj m) = .error ("unknown SSH auth kind: " ++ ak)) ∧
    (∀ (v : JVal) (st : TargetState), setTargetOptions v = .ok st →
      ∃ b, (kindOf v = some "Ssh" ∧ st = ⟨[b], [], [], []⟩) ∨
           (kindOf v = some "Http" ∧ st = ⟨[], [b], [], []⟩) ∨
           (kindOf v = some "MySql" ∧ st = ⟨[], [], [b], []⟩) ∨
           (kindOf v = some "Postgres" ∧ st = ⟨[], [], [], [b]⟩)) := by
  refine ⟨?_, ?_, ?_, ?_⟩
  · intro v hk
    cases v with
    | obj m =>
      simp only [kindOf, JVal.asObj?, Option.some_bind] at hk
      exact ⟨"missing 'kind' field in target options",
        by simp [setTargetOptions, targetOptionsToMap, Bind.bind, Except.bind, hk]⟩
    | null => exact ⟨_, rfl⟩
    | bool b => exact ⟨_, rfl⟩
    | num n => exact ⟨_, rfl⟩
    | str s => exact ⟨_, rfl⟩
    | arr xs => exact ⟨_, rfl⟩
  · intro v k hk h1 h2 h3 h4
    cases v with
    | obj m =>
      simp only [kindOf, JVal.asObj?, Option.some_bind] at hk
      simp [setTargetOptions, targetOptionsToMap, Bind.bind, Except.bind, hk,
        h1, h2, h3, h4]
    | null => simp [kindOf, JVal.asObj?] at hk
    | bool b => simp [kindOf, JVal.asObj?] at hk
    | num n => simp [kindOf, JVal.asObj?] at hk
    | str s => simp [kindOf, JVal.asObj?] at hk
    | arr xs => simp [kindOf, JVal.asObj?] at hk
  · intro m auth ak hk hauth hak hP hPK
    simp only [kindOf, JVal.asObj?, Option.some_bind] at hk
    simp [setTargetOptions, targetOptionsToMap, Bind.bind, Except.bind, hk,
      hauth, hak, JVal.asObj?, hP, hPK]
  · intro v st h
    cases v with
    | null => simp [setTargetOptions, targetOptionsToMap, Bind.bind, Except.bind] at h
    | bool b => simp [setTargetOptions, targetOptionsToMap, Bind.bind, Except.bind] at h
    | num n => simp [setTargetOptions, targetOptionsToMap, Bind.bind, Except.bind] at h
    | str s => simp [setTargetOptions, targetOptionsToMap, Bind.bind, Except.bind] at h
    | arr xs => simp [setTargetOptions, targetOptionsToMap, Bind.bind, Except.bind] at h
    | obj m =>
      simp only [setTargetOptions, targetOptionsToMap, Bind.bind, Except.bind] at h
      cases hk : (alookup m "kind").bind JVal.asString? with
      | none =>
        simp only [hk] at h
        exact Except.noConfusion h
      | some k =>
        simp only [hk] at h
        have hkind : kindOf (.obj m) = some k := by
          simp [kindOf, JVal.asObj?, hk]
        by_cases h1 : k = "Ssh"
        · subst h1
          simp only [if_pos rfl] at h
          cases ha : (jget m "auth").asObj? with
          | none => simp only [ha] at h; exact Except.noConfusion h
          | some a =>
            simp only [ha] at h
            cases hak : (alookup a "kind").bind JVal.asString? with
            | none => simp only [hak] at h; exact Except.noConfusion h
            | some ak =>
              simp only [hak] at h
              by_cases hp : ak = "Password"
              · subst hp
                simp only [if_pos rfl] at h
                injection h with h2
                exact ⟨_, Or.inl ⟨hkind, h2.symm⟩⟩
              · simp only [if_neg hp] at h
                by_cases hpk : ak = "PublicKey"
                · subst hpk
                  simp only [if_pos rfl] at h
                  injection h with h2
                  exact ⟨_, Or.inl ⟨hkind, h2.symm⟩⟩
                · simp only [if_neg hpk] at h
                  exact Except.noConfusion h
        · simp only [if_neg h1] at h
          by_cases h2 : k = "Http"
          · subst h2
            simp only [if_pos rfl] at h
            cases ht : (jget m "tls").asObj? with
            | none => simp only [ht] at h; exact Except.noConfusion h
            | some t =>
              simp only [ht] at h
              injection h with h3
              exact ⟨_, Or.inr (Or.inl ⟨hkind, h3.symm⟩)⟩
          · simp only [if_neg h2] at h
            by_cases h3 : k = "MySql"
            · subst h3
              simp only [if_pos rfl] at h
              cases ht : (jget m "tls").asObj? with
              | none => simp only [ht] at h; exact Except.noConfusion h
              | some t =>
                simp only [ht] at h
                injection h with h4
                exact ⟨_, Or.inr (Or.inr (Or.inl ⟨hkind, h4.symm⟩))⟩
            · simp only [if_neg h3] at h
              by_cases h4 : k = "Postgres"
              · subst h4
                simp only [if_pos rfl] at h
                cases ht : (jget m "tls").asObj? with
                | none => simp only [ht] at h; exact Except.noConfusion h
                | some t =>
                  simp only [ht] at h
                  injection h with h5
                  exact ⟨_, Or.inr (Or.inr (Or.inr ⟨hkind, h5.symm⟩))⟩
              · simp only [if_neg h4] at h
                exact Except.noConfusion h

/-- Witness for claim C8 at concrete inputs. -/
theorem c8_witness :
    (∃ e, setTargetOptions (.obj []) = .error e) ∧
    setTargetOptions (.obj [("kind", .str "Ldap")]) =
      .error "unknown target kind: Ldap" ∧
    setTargetOptions
        (.obj [("kind", .str "Ssh"), ("auth", .obj [("kind", .str "Agent")])]) =
      .error "unknown SSH auth kind: Agent" ∧
    (∃ b,
      (kindOf (.obj [("kind", .str "Http"), ("tls", .obj [])]) = some "Ssh" ∧
        ({ ssh_options := [],
           http_options := [.obj [("url", .null),
             ("tls", .arr [.obj [("mode", .null), ("verify", .null)]])]],
           mysql_options := [], postgres_options := [] } : TargetState) =
          ⟨[b], [], [], []⟩) ∨
      (kindOf (.obj [("kind", .str "Http"), ("tls", .obj [])]) = some "Http" ∧
        ({ ssh_options := [],
           http_options := [.obj [("url", .null),
             ("tls", .arr [.obj [("mode", .null), ("verify", .null)]])]],
           mysql_options := [], postgres_options := [] } : TargetState) =
          ⟨[], [b], [], []⟩) ∨
      (kindOf (.obj [("kind", .str "Http"), ("tls", .obj [])]) = some "MySql" ∧
        ({ ssh_options := [],
           http_options := [.obj [("url", .null),
             ("tls", .arr [.obj [("mode", .null), ("verify", .null)]])]],
           mysql_options := [], postgres_options := [] } : TargetState) =
          ⟨[], [], [b], []⟩) ∨
      (kindOf (.obj [("kind", .str "Http"), ("tls", .obj [])]) = some "Postgres" ∧
        ({ ssh_options := [],
           http_options := [.obj [("url", .null),
             ("tls", .arr [.obj [("mode", .null), ("verify", .null)]])]],
           mysql_options := [], postgres_options := [] } : TargetState) =
          ⟨[], [], [], [b]⟩)) :=
  ⟨c8_setTargetOptions_kinds.1 (.obj []) rfl,
   c8_setTargetOptions_kinds.2.1 (.obj [("kind", .str "Ldap")]) "Ldap" rfl
     (by decide) (by decide) (by decide) (by decide),
   c8_setTargetOptions_kinds.2.2.1 [("kind", .str "Ssh"), ("auth", .obj [("kind", .str "Agent")])]
     [("kind", .str "Agent")] "Agent" rfl rfl rfl (by decide) (by decide),
   c8_setTargetOptions_kinds.2.2.2 (.obj [("kind", .str "Http"), ("tls", .obj [])])
     _ rfl⟩

/-- Claim C4: composite-ID decoding maps `"a:b"` to `("a", "b")` and fails
with a format error naming the expected pattern for `"a"`, `"a:b:c"` and the
empty string. -/
theorem c4_parseCompositeID_examples :
    parseCompositeID "a:b" "user_id" "role_id" = .ok ("a", "b") ∧
    parseCompositeID "a" "user_id" "role_id" =
      .error "expected ID in format 'user_id:role_id', got: a" ∧
    parseCompositeID "a:b:c" "user_id" "role_id" =
      .error "expected ID in format 'user_id:role_id', got: a:b:c" ∧
    parseCompositeID "" "user_id" "role_id" =
      .error "expected ID in format 'user_id:role_id', got: " := by
  refine ⟨?_, ?_, ?_, ?_⟩ <;> rfl

/-- Claim C3 counterexample: the claim requires decoding to fail on inputs
with an empty segment such as `":b"` or `"a:"`, but the code only counts
segments, so `":b"` decodes to `("", "b")` — and the inline parsers of the
relationship and credential resources accept such inputs too. -/
theorem c3_counterexample :
    parseCompositeID ":b" "user_id" "role_id" = .ok ("", "b") ∧
    parsePublicKeyCredentialID "a:" = .ok ("a", "") ∧
    resourceUserRoleRead ":b" (.ok []) = .ok ("", "", "b") := by
  refine ⟨?_, ?_, ?_⟩ <;> rfl

/-- Claim C3 (amended): composite-ID decoding (`parseCompositeID` and the
inline parsing in the credential resource) succeeds exactly when the input
splits on `":"` into exactly two (possibly empty) segments, returning the
two segments; for every other input it fails with a format error naming the
expected pattern. -/
theorem c3_parseCompositeID_characterisation :
    (∀ id p1 p2 a b,
      parseCompositeID id p1 p2 = .ok (a, b) ↔ goSplit id ':' = [a, b]) ∧
    (∀ id p1 p2, (goSplit id ':').length ≠ 2 →
      parseCompositeID id p1 p2 =
        .error ("expected ID in format '" ++ p1 ++ ":" ++ p2 ++ "', got: " ++ id)) ∧
    (∀ id a b, goSplit id ':' = [a, b] →
      parsePublicKeyCredentialID id = .ok (a, b)) ∧
    (∀ id, (goSplit id ':').length ≠ 2 →
      parsePublicKeyCredentialID id =
        .error ("invalid ID format: " ++ id ++ " (expected user_id:credential_id)")) := by
  refine ⟨?_, ?_, ?_, ?_⟩
  · intro id p1 p2 a b
    unfold parseCompositeID
    cases h : goSplit id ':' with
    | nil => simp
    | cons x xs =>
      cases xs with
      | nil => simp
      | cons y ys =>
        cases ys with
        | nil => simp [And.comm]
        | cons z zs => simp
  · intro id p1 p2 hlen
    unfold parseCompositeID
    cases h : goSplit id ':' with
    | nil => rfl
    | cons x xs =>
      cases xs with
      | nil => rfl
      | cons y ys =>
        cases ys with
        | nil => exact absurd (by rw [h]; rfl) hlen
        | cons z zs => rfl
  · intro id a b h
    unfold parsePublicKeyCredentialID
    rw [h]
  · intro id hlen
    unfold parsePublicKeyCredentialID
    cases h : goSplit id ':' with
    | nil => rfl
    | cons x xs =>
      cases xs with
      | nil => rfl
      | cons y ys =>
        cases ys with
        | nil => exact absurd (by rw [h]; rfl) hlen
        | cons z zs => rfl

/-- Witness for the amended claim C3 at concrete inputs. -/
theorem c3_witness :
    parseCompositeID "a:" "user_id" "role_id" = .ok ("a", "") ∧
    parseCompositeID "a:b:c" "p" "q" =
      .error "expected ID in format 'p:q', got: a:b:c" ∧
    parsePublicKeyCredentialID "a" =
      .error "invalid ID format: a (expected user_id:credential_id)" :=
  ⟨(c3_parseCompositeID_characterisation.1 "a:" "user_id" "role_id" "a" "").mpr
      (by decide),
   c3_parseCompositeID_characterisation.2.1 "a:b:c" "p" "q" (by decide),
   c3_parseCompositeID_characterisation.2.2.2 "a" (by decide)⟩

/-- Claim C2: target-option validation passes exactly when exactly one of
the four option blocks is populated; with zero or with more than one
populated block it returns an error (so the plan-time check fails before
any network call). -/
theorem c2_validateTargetConfig (d : TargetResourceData) :
    validateTargetConfig d = none ↔
      ((d.ssh_options ≠ [] ∧ d.http_options = [] ∧ d.mysql_options = [] ∧
          d.postgres_options = []) ∨
       (d.ssh_options = [] ∧ d.http_options ≠ [] ∧ d.mysql_options = [] ∧
          d.postgres_options = []) ∨
       (d.ssh_options = [] ∧ d.http_options = [] ∧ d.mysql_options ≠ [] ∧
          d.postgres_options = []) ∨
       (d.ssh_options = [] ∧ d.http_options = [] ∧ d.mysql_options = [] ∧
          d.postgres_options ≠ [])) := by
  obtain ⟨s, h, m, p⟩ := d
  cases s <;> cases h <;> cases m <;> cases p <;>
    simp [validateTargetConfig]

/-- Claim C5: on status ≥ 400, `handleResponse` fails with an error carrying
the numeric status code and the verbatim body text; on status < 400 the
status check passes and the JSON body is decoded into the result object
exactly when one is given and the status is not 204 No Content. -/
theorem c5_handleResponse {α : Type} :
    (∀ (status : Nat) (body : String) (result : Option (Except String α)),
      400 ≤ status →
      handleResponse status body result =
        .error ("API request failed with status " ++ toString status ++ ": " ++ body)) ∧
    (∀ (status : Nat) (body : String), status < 400 →
      handleResponse (α := α) status body none = .ok none ∧
      (∀ a : α, status ≠ 204 →
        handleResponse status body (some (.ok a)) = .ok (some a)) ∧
      (∀ e : String, status ≠ 204 →
        handleResponse (α := α) status body (some (.error e)) =
          .error ("failed to decode response: " ++ e)) ∧
      (∀ dec : Except String α, status = 204 →
        handleResponse status body (some dec) = .ok none)) := by
  constructor
  · intro status body result h
    simp [handleResponse, h]
  · intro status body h
    have h' : ¬ status ≥ 400 := Nat.not_le.mpr h
    refine ⟨by simp [handleResponse, h'], ?_, ?_, ?_⟩
    · intro a h204
      simp [handleResponse, h', h204]
    · intro e h204
      simp [handleResponse, h', h204]
    · intro dec h204
      simp [handleResponse, h', h204]

/-- Witness for claim C5 at concrete inputs, including the spec's
`"invalid token"` example body. -/
theorem c5_witness :
    handleResponse (α := Nat) 401 "invalid token" (some (.ok 0)) =
      .error "API request failed with status 401: invalid token" ∧
    handleResponse (α := Nat) 200 "x" (some (.ok 7)) = .ok (some 7) ∧
    handleResponse (α := Nat) 204 "x" (some (.ok 7)) = .ok none ∧
    handleResponse (α := Nat) 200 "x" none = .ok none :=
  ⟨c5_handleResponse.1 401 "invalid token" (some (.ok 0)) (by decide),
   (c5_handleResponse.2 200 "x" (by decide)).2.1 7 (by decide),
   (c5_handleResponse.2 204 "x" (by decide)).2.2.2 (.ok 7) rfl,
   (c5_handleResponse.2 200 "x" (by decide)).1⟩

/-- Claim C6: a 404 on `GetRole`, `GetUser` or `GetTarget` yields a nil
result and a nil error, and the user resource read layer turns that nil
result into clearing the stored identifier. -/
theorem c6_notFound_nil :
    (∀ (body : String) (dec : Except String Role),
      getRole 404 body dec = .ok none) ∧
    (∀ (body : String) (dec : Except String User),
      getUser 404 body dec = .ok none) ∧
    (∀ (body : String) (dec : Except String Target),
      getTarget 404 body dec = .ok none) ∧
    (∀ (id : String) (body : String) (dec : Except String User),
      resourceUserReadId id (getUser 404 body dec) = .ok "") := by
  refine ⟨?_, ?_, ?_, ?_⟩ <;> intros <;> rfl

/-- Claim C9: when the stored composite ID of a user-role resource is
well-formed as `user_id:role_id`, a successful re-fetch of the user's role
list keeps the identifier when the role is a member and clears it (without
an error) when it is not; `user_id` and `role_id` are written to state
either way. -/
theorem c9_resourceUserRoleRead (id userID roleID : String) (roles : List Role)
    (hsplit : goSplit id ':' = [userID, roleID]) :
    (roleID ∈ roles.map Role.id →
      resourceUserRoleRead id (.ok roles) = .ok (id, userID, roleID)) ∧
    (roleID ∉ roles.map Role.id →
      resourceUserRoleRead id (.ok roles) = .ok ("", userID, roleID)) := by
  unfold resourceUserRoleRead
  rw [hsplit]
  constructor
  · intro hmem
    have hfound : roles.any (fun r => r.id == roleID) = true := by
      rw [List.any_eq_true]
      obtain ⟨r, hr, hid⟩ := List.mem_map.mp hmem
      exact ⟨r, hr, by simp [hid]⟩
    simp [hfound]
  · intro hmem
    have hfound : roles.any (fun r => r.id == roleID) = false := by
      rw [Bool.eq_false_iff]
      intro hc
      obtain ⟨r, hr, hid⟩ := List.any_eq_true.mp hc
      exact hmem (List.mem_map.mpr ⟨r, hr, by simpa using hid⟩)
    simp [hfound]

/-- Witness for claim C9 at concrete inputs. -/
theorem c9_witness :
    resourceUserRoleRead "u:r" (.ok [{ id := "r", name := "n", description := "" }]) =
      .ok ("u:r", "u", "r") ∧
    resourceUserRoleRead "u:r" (.ok []) = .ok ("", "u", "r") :=
  ⟨(c9_resourceUserRoleRead "u:r" "u" "r"
      [{ id := "r", name := "n", description := "" }] (by decide)).1 (by decide),
   (c9_resourceUserRoleRead "u:r" "u" "r" [] (by decide)).2 (by decide)⟩

/-- Claim C10: the request path handed to `doRequest` by `GetRoles` and by
`GetTargets` is the same for every search argument (the query built from it
lives only on a discarded copy), while `GetUsers` does append a non-empty
search term to its path. -/
theorem c10_search_independent :
    (∀ s1 s2 : String, getRolesRequestPath s1 = getRolesRequestPath s2) ∧
    (∀ s1 s2 : String, getTargetsRequestPath s1 = getTargetsRequestPath s2) ∧
    (∀ s : String, s ≠ "" → getUsersRequestPath s = "/users?search=" ++ s) ∧
    getUsersRequestPath "" = "/users" ∧
    getUsersRequestPath "alice" ≠ getUsersRequestPath "bob" := by
  refine ⟨fun s1 s2 => rfl, fun s1 s2 => rfl, ?_, rfl, by decide⟩
  intro s h
  simp [getUsersRequestPath, h]

/-- Witness for claim C10 at concrete inputs. -/
theorem c10_witness :
    getRolesRequestPath "alice" = getRolesRequestPath "bob" ∧
    getTargetsRequestPath "alice" = getTargetsRequestPath "" ∧
    getUsersRequestPath "alice" = "/users?search=alice" :=
  ⟨c10_search_independent.1 "alice" "bob",
   c10_search_independent.2.1 "alice" "",
   c10_search_independent.2.2.1 "alice" (by decide)⟩

/-- A key found by `alookup` is a member of the association list. -/
theorem alookup_mem {β : Type} (fields : List (String × β)) (k : String) (v : β)
    (h : alookup fields k = some v) : (k, v) ∈ fields := by
  induction fields with
  | nil => simp [alookup] at h
  | cons p rest ih =>
    obtain ⟨k', v'⟩ := p
    by_cases hk : k' = k
    · subst hk
      simp [alookup] at h
      subst h
      exact List.mem_cons_self _ _
    · simp [alookup, hk] at h
      exact List.mem_cons_of_mem _ (ih h)

/-- Lookup distributes over list concatenation. -/
theorem alookup_append {β : Type} (xs ys : List (String × β)) (k : String) :
    alookup (xs ++ ys) k =
      match alookup xs k with
      | some v => some v
      | none => alookup ys k := by
  induction xs with
  | nil => simp [alookup]
  | cons p rest ih =>
    obtain ⟨k', v'⟩ := p
    by_cases hk : k' = k
    · subst hk; simp [alookup]
    · simp [alookup, hk, ih]

/-- Looking up a different key skips a flattened policy field. -/
theorem alookup_flattenField_ne (k q : String) (hne : ¬ k = q)
    (o : Option (List String)) (ys : List (String × JVal)) :
    alookup (flattenPolicyField k o ++ ys) q = alookup ys q := by
  cases o <;> simp [flattenPolicyField, alookup, alookup_append, hne]

/-- Looking up the same key hits a flattened policy field when present. -/
theorem alookup_flattenField_eq (k : String) (o : Option (List String))
    (ys : List (String × JVal)) :
    alookup (flattenPolicyField k o ++ ys) k =
      match o with
      | some l => some (flattenCredentialKindList l)
      | none => alookup ys k := by
  cases o <;> simp [flattenPolicyField, alookup, alookup_append]

/-- Looking up a different key misses a final flattened policy field. -/
theorem alookup_flattenField_ne_last (k q : String) (hne : ¬ k = q)
    (o : Option (List String)) :
    alookup (flattenPolicyField k o) q = none := by
  cases o <;> simp [flattenPolicyField, alookup, hne]

/-- Looking up the same key in a final flattened policy field. -/
theorem alookup_flattenField_eq_last (k : String) (o : Option (List String)) :
    alookup (flattenPolicyField k o) k =
      match o with
      | some l => some (flattenCredentialKindList l)
      | none => none := by
  cases o <;> simp [flattenPolicyField, alookup]

/-- The kind-list scan passes (at any start index) exactly when every
element is a valid kind string. -/
theorem findInvalidKind_none_iff (key : String) (elems : List JVal) :
    ∀ i, (findInvalidKind key i elems = none ↔ ∀ e ∈ elems, elemOk e = true) := by
  induction elems with
  | nil => intro i; simp [findInvalidKind]
  | cons e rest ih =>
    intro i
    cases e with
    | str s =>
      by_cases hv : validKind s
      · simp [findInvalidKind, hv, ih, elemOk]
      · simp [findInvalidKind, hv, elemOk]
    | null => simp [findInvalidKind, elemOk]
    | bool b => simp [findInvalidKind, elemOk]
    | num n => simp [findInvalidKind, elemOk]
    | arr xs => simp [findInvalidKind, elemOk]
    | obj fs => simp [findInvalidKind, elemOk]

/-- The policy-map scan passes exactly when every entry is acceptable. -/
theorem validatePolicyEntries_none_iff (fields : List (String × JVal)) :
    validatePolicyEntries fields = none ↔ ∀ p ∈ fields, entryOk p.1 p.2 := by
  induction fields with
  | nil => simp [validatePolicyEntries]
  | cons p rest ih =>
    obtain ⟨key, val⟩ := p
    by_cases hk : validPolicyKey key
    · cases val with
      | arr valueList =>
        cases hfind : findInvalidKind key 0 valueList with
        | some e =>
          constructor
          · intro h
            simp [validatePolicyEntries, hk, hfind] at h
          · intro h
            exfalso
            obtain ⟨⟨_, elems, harr, helems⟩, _⟩ := List.forall_mem_cons.mp h
            injection harr with harr2
            subst harr2
            rw [(findInvalidKind_none_iff key valueList 0).mpr helems] at hfind
            exact Option.noConfusion hfind
        | none =>
          have hall := (findInvalidKind_none_iff key valueList 0).mp hfind
          simp [validatePolicyEntries, hk, hfind, ih, entryOk,
            List.forall_mem_cons, hall]
          exact fun _ => hall
      | null => simp [validatePolicyEntries, hk, entryOk]
      | bool b => simp [validatePolicyEntries, hk, entryOk]
      | num n => simp [validatePolicyEntries, hk, entryOk]
      | str s => simp [validatePolicyEntries, hk, entryOk]
      | obj fs => simp [validatePolicyEntries, hk, entryOk]
    · simp [validatePolicyEntries, hk, entryOk]

/-- The kind-copy loop succeeds on a list of valid kind strings, returning
the strings it re-wraps to the original list. -/
theorem copyKinds_spec (l : List JVal) (h : ∀ e ∈ l, elemOk e = true) :
    ∃ strs, copyKinds l = .ok strs ∧ strs.map JVal.str = l := by
  induction l with
  | nil => exact ⟨[], rfl, rfl⟩
  | cons e rest ih =>
    have he := h e (by simp)
    cases e with
    | str s =>
      obtain ⟨strs, hc, hm⟩ := ih (fun x hx => h x (by simp [hx]))
      exact ⟨s :: strs,
        by simp [copyKinds, asStrE, hc, Bind.bind, Except.bind],
        by simp [hm]⟩
    | null => simp [elemOk] at he
    | bool b => simp [elemOk] at he
    | num n => simp [elemOk] at he
    | arr xs => simp [elemOk] at he
    | obj fs => simp [elemOk] at he

/-- On a validated policy map with non-empty lists, expanding one protocol
field succeeds and mirrors the map's entry for that key. -/
theorem expandField_spec (fields : List (String × JVal))
    (hOk : ∀ p ∈ fields, entryOk p.1 p.2)
    (hne : ∀ k v, alookup fields k = some v → ∃ e es, v = .arr (e :: es))
    (k : String) :
    ∃ o, expandPolicyField fields k = .ok o ∧
      ((o = none ∧ alookup fields k = none) ∨
       (∃ l, o = some l ∧ l ≠ [] ∧
         alookup fields k = some (.arr (l.map JVal.str)))) := by
  cases hl : alookup fields k with
  | none => exact ⟨none, by simp [expandPolicyField, hl], Or.inl ⟨rfl, rfl⟩⟩
  | some v =>
    obtain ⟨e, es, rfl⟩ := hne k v hl
    obtain ⟨_, elems, harr, helems⟩ := hOk (k, .arr (e :: es)) (alookup_mem _ _ _ hl)
    injection harr with harr2
    subst harr2
    obtain ⟨strs, hc, hm⟩ := copyKinds_spec (e :: es) helems
    refine ⟨some strs, ?_, Or.inr ⟨strs, rfl, ?_, ?_⟩⟩
    · simp [expandPolicyField, hl, asArrE, expandCredentialKindList, hc,
        Bind.bind, Except.bind]
    · intro hnil
      subst hnil
      exact List.noConfusion hm
    · rw [hm]

/-- Claim C7: credential-policy validation rejects any policy with a
top-level key outside the four protocol names (such as `"ldap"`) and any
kind string outside the five valid literals (such as `"Fingerprint"`),
before any API call; the policy `{http: ["Password", "Totp"]}` is accepted;
and every accepted policy whose kind lists are non-empty round-trips
unchanged (as a map, i.e. under every key lookup) through
`expandCredentialPolicy` followed by `flattenCredentialPolicy`. -/
theorem c7_credentialPolicy :
    (∀ (fields : List (String × JVal)) (v : JVal),
      ("ldap", v) ∈ fields → validateUserConfig [.obj fields] ≠ none) ∧
    (∀ (fields : List (String × JVal)) (k : String) (elems : List JVal),
      (k, .arr elems) ∈ fields → JVal.str "Fingerprint" ∈ elems →
      validateUserConfig [.obj fields] ≠ none) ∧
    validateUserConfig [.obj [("http", .arr [.str "Password", .str "Totp"])]] = none ∧
    (∀ fields : List (String × JVal),
      validateUserConfig [.obj fields] = none →
      (∀ k v, alookup fields k = some v → ∃ e es, v = .arr (e :: es)) →
      ∃ p, expandCredentialPolicy [.obj fields] = .ok (some p) ∧
        ∃ fields2, flattenCredentialPolicy (some p) = [.obj fields2] ∧
          ∀ q, alookup fields2 q = alookup fields q) := by
  refine ⟨?_, ?_, by rfl, ?_⟩
  · intro fields v hmem hnone
    have hOk := (validatePolicyEntries_none_iff fields).mp
      (by simpa [validateUserConfig] using hnone)
    have hbad := hOk ("ldap", v) hmem
    simp [entryOk, validPolicyKey] at hbad
  · intro fields k elems hmem hfing hnone
    have hOk := (validatePolicyEntries_none_iff fields).mp
      (by simpa [validateUserConfig] using hnone)
    obtain ⟨hkey, elems', harr, helems⟩ := hOk (k, .arr elems) hmem
    injection harr with h2
    subst h2
    have hbad := helems (.str "Fingerprint") hfing
    simp [elemOk, validKind] at hbad
  · intro fields hval hne
    have hOk := (validatePolicyEntries_none_iff fields).mp
      (by simpa [validateUserConfig] using hval)
    obtain ⟨o1, he1, hs1⟩ := expandField_spec fields hOk hne "http"
    obtain ⟨o2, he2, hs2⟩ := expandField_spec fields hOk hne "ssh"
    obtain ⟨o3, he3, hs3⟩ := expandField_spec fields hOk hne "mysql"
    obtain ⟨o4, he4, hs4⟩ := expandField_spec fields hOk hne "postgres"
    refine ⟨{ http := o1, ssh := o2, mysql := o3, postgres := o4 }, ?_, ?_⟩
    · simp [expandCredentialPolicy, asObjE, he1, he2, he3, he4,
        Bind.bind, Except.bind]
    · refine ⟨_, rfl, ?_⟩
      intro q
      dsimp only
      simp only [List.append_assoc]
      by_cases hq1 : q = "http"
      · subst hq1
        rw [alookup_flattenField_eq]
        rcases hs1 with ⟨rfl, hl⟩ | ⟨l, rfl, hln, hl⟩
        · rw [hl]
          rw [alookup_flattenField_ne "ssh" "http" (by decide)]
          rw [alookup_flattenField_ne "mysql" "http" (by decide)]
          rw [alookup_flattenField_ne_last "postgres" "http" (by decide)]
        · rw [hl]
          cases l with
          | nil => exact absurd rfl hln
          | cons s ss => rfl
      · by_cases hq2 : q = "ssh"
        · subst hq2
          rw [alookup_flattenField_ne "http" "ssh" (by decide)]
          rw [alookup_flattenField_eq]
          rcases hs2 with ⟨rfl, hl⟩ | ⟨l, rfl, hln, hl⟩
          · rw [hl]
            rw [alookup_flattenField_ne "mysql" "ssh" (by decide)]
            rw [alookup_flattenField_ne_last "postgres" "ssh" (by decide)]
          · rw [hl]
            cases l with
            | nil => exact absurd rfl hln
            | cons s ss => rfl
        · by_cases hq3 : q = "mysql"
          · subst hq3
            rw [alookup_flattenField_ne "http" "mysql" (by decide)]
            rw [alookup_flattenField_ne "ssh" "mysql" (by decide)]
            rw [alookup_flattenField_eq]
            rcases hs3 with ⟨rfl, hl⟩ | ⟨l, rfl, hln, hl⟩
            · rw [hl]
              rw [alookup_flattenField_ne_last "postgres" "mysql" (by decide)]
            · rw [hl]
              cases l with
              | nil => exact absurd rfl hln
              | cons s ss => rfl
          · by_cases hq4 : q = "postgres"
            · subst hq4
              rw [alookup_flattenField_ne "http" "postgres" (by decide)]
              rw [alookup_flattenField_ne "ssh" "postgres" (by decide)]
              rw [alookup_flattenField_ne "mysql" "postgres" (by decide)]
              rw [alookup_flattenField_eq_last]
              rcases hs4 with ⟨rfl, hl⟩ | ⟨l, rfl, hln, hl⟩
              · rw [hl]
              · rw [hl]
                cases l with
                | nil => exact absurd rfl hln
                | cons s ss => rfl
            · rw [alookup_flattenField_ne "http" q (fun h => hq1 h.symm)]
              rw [alookup_flattenField_ne "ssh" q (fun h => hq2 h.symm)]
              rw [alookup_flattenField_ne "mysql" q (fun h => hq3 h.symm)]
              rw [alookup_flattenField_ne_last "postgres" q (fun h => hq4 h.symm)]
              cases hlq : alookup fields q with
              | none => rfl
              | some v =>
                exfalso
                have hkey := (hOk (q, v) (alookup_mem _ _ _ hlq)).1
                simp [validPolicyKey] at hkey
                rcases hkey with ((h | h) | h) | h
                · exact hq1 h
                · exact hq2 h
                · exact hq3 h
                · exact hq4 h

/-- Witness for claim C7 at concrete inputs. -/
theorem c7_witness :
    validateUserConfig [.obj [("ldap", .arr [])]] ≠ none ∧
    validateUserConfig [.obj [("ssh", .arr [.str "Fingerprint"])]] ≠ none ∧
    (∃ p, expandCredentialPolicy
        [.obj [("http", .arr [.str "Password", .str "Totp"])]] = .ok (some p) ∧
      ∃ fields2, flattenCredentialPolicy (some p) = [.obj fields2] ∧
        ∀ q, alookup fields2 q =
          alookup [("http", JVal.arr [.str "Password", .str "Totp"])] q) :=
  ⟨c7_credentialPolicy.1 [("ldap", .arr [])] (.arr [])
      (List.mem_cons_self _ _),
   c7_credentialPolicy.2.1 [("ssh", .arr [.str "Fingerprint"])] "ssh"
      [.str "Fingerprint"] (List.mem_cons_self _ _) (List.mem_cons_self _ _),
   c7_credentialPolicy.2.2.2 [("http", .arr [.str "Password", .str "Totp"])]
      rfl (by
        intro k v h
        by_cases hk : "http" = k
        · simp [alookup, hk] at h
          first
          | exact ⟨.str "Password", [.str "Totp"], h⟩
          | exact ⟨.str "Password", [.str "Totp"], h.symm⟩
        · simp [alookup, hk] at h)⟩

end Warpgate
